import Mathlib

/-!
Shallow embedding of `src/consumers/project_consumer_Sean.py`.

The script consumes JSON messages either from a Kafka topic (when the
`kafka` library imports successfully) or from a local JSON-lines file,
extracts the `"message_length"` field of each message (defaulting to `0`
when the key is absent), appends it to the module-level list
`message_lengths`, increments its count in the module-level dict
`length_counts`, and redraws a bar chart after every message.

Modelling decisions:
* JSON scalar values are `JVal` (`null`, booleans, integers, strings);
  a parsed message object is an association list `List (String × JVal)`.
  The claims only exercise scalar field values, so nested objects and
  arrays are not represented.
* The Python dict `length_counts` is an insertion-ordered association
  list with unique keys; `dictIncr` updates the existing entry in place
  or appends a fresh `(key, 1)` entry, exactly as lines 130-133 do.
* The external plotting calls are modelled as emitted `RenderEffect`
  values: `update_chart` always issues `clear` (line 56, `ax.clear()`)
  and issues `draw` with the sorted bars only when `message_lengths` is
  nonempty (lines 57-75).  `update_chart` never assigns the module-level
  state, so it returns its input state unchanged.
* `json.loads` and the Kafka client are external libraries; a file line
  is abstracted as `Line.ok m` (parses to the object `m`) or
  `Line.malformed` (raises), and a Kafka iteration step as
  `KafkaEvent.msg m` or `KafkaEvent.err` (connection failure or
  deserialization failure raising inside the loop).
-/

/-- A JSON scalar value, as produced by `json.loads` for the field values
the claims exercise. -/
inductive JVal where
  | null
  | bool (b : Bool)
  | num (n : Int)
  | str (s : String)
deriving DecidableEq, Repr

/-- A parsed JSON message object: an association list of fields. -/
abbrev Message := List (String × JVal)

/-- A side effect on the matplotlib axes performed by `update_chart`. -/
inductive RenderEffect where
  | clear
  | draw (bars : List (JVal × Nat))
deriving DecidableEq, Repr

/-- The module-level mutable state of the script: the append-only sample
list `message_lengths` (line 49) and the histogram dict `length_counts`
(line 50). -/
structure ConsumerState where
  message_lengths : List JVal
  length_counts : List (JVal × Nat)
deriving DecidableEq, Repr

/-- The state at module load: both containers empty (lines 49-50). -/
def initialState : ConsumerState :=
  { message_lengths := [], length_counts := [] }

/-- The count stored for key `k` (`0` when absent); `length_counts[length]`
reads on a present key, and the `in` test from line 130. -/
def countOf (d : List (JVal × Nat)) (k : JVal) : Nat :=
  (d.lookup k).getD 0

/-- Lines 130-133: `length_counts[message_length] += 1` when the key is
present, otherwise `length_counts[message_length] = 1` (appended in
insertion order, as a Python dict does). -/
def dictIncr : List (JVal × Nat) → JVal → List (JVal × Nat)
  | [], k => [(k, 1)]
  | (k', v) :: rest, k =>
    if k' = k then (k', v + 1) :: rest else (k', v) :: dictIncr rest k

/-- Total comparison used to model line 61, `sorted(length_counts.keys())`.
On two integers it is the numeric order Python uses; the claims never sort
keys of differing types (where Python 3 would raise `TypeError`), so
cross-type pairs are ordered by an arbitrary fixed tag order. -/
def jvalLe (a b : JVal) : Bool :=
  match a, b with
  | JVal.num m, JVal.num n => decide (m ≤ n)
  | JVal.str s, JVal.str t => decide (s ≤ t)
  | JVal.bool x, JVal.bool y => !x || y
  | JVal.null, _ => true
  | _, JVal.null => false
  | JVal.bool _, _ => true
  | _, JVal.bool _ => false
  | JVal.num _, _ => true
  | _, JVal.num _ => false

/-- Insert a key into a list sorted by `jvalLe`. -/
def insertByLe (x : JVal) : List JVal → List JVal
  | [] => [x]
  | y :: ys => if jvalLe x y then x :: y :: ys else y :: insertByLe x ys

/-- Insertion sort by `jvalLe`, modelling `sorted` on the dict's keys. -/
def sortJVals : List JVal → List JVal
  | [] => []
  | x :: xs => insertByLe x (sortJVals xs)

/-- Lines 52-75, `update_chart`: clear the axes; return with no drawing
when `message_lengths` is empty; otherwise draw one bar per distinct
length, sorted by key, with height its count.  The function assigns no
module-level state, so the state component is returned unchanged. -/
def update_chart (s : ConsumerState) : ConsumerState × List RenderEffect :=
  if s.message_lengths.isEmpty then
    (s, [RenderEffect.clear])
  else
    let sorted_lengths := sortJVals (s.length_counts.map Prod.fst)
    let counts := sorted_lengths.map (fun k => countOf s.length_counts k)
    (s, [RenderEffect.clear, RenderEffect.draw (sorted_lengths.zip counts)])

/-- Line 126: `message.get("message_length", 0)` — the field's value when
the key is present (whatever it is), otherwise the integer `0`. -/
def msgLen (message : Message) : JVal :=
  (message.lookup "message_length").getD (JVal.num 0)

/-- Lines 121-135, `process_message`: extract the length, append it to
`message_lengths`, bump its histogram count, then call `update_chart`
(which emits render effects and leaves the aggregator state unchanged). -/
def process_message (s : ConsumerState) (message : Message) :
    ConsumerState × List RenderEffect :=
  let message_length := msgLen message
  let s1 : ConsumerState :=
    { message_lengths := s.message_lengths ++ [message_length]
      length_counts := dictIncr s.length_counts message_length }
  (s1, (update_chart s1).2)

/-- The state after one `process_message` call. -/
def procState (s : ConsumerState) (m : Message) : ConsumerState :=
  (process_message s m).1

/-- The state after processing a whole sequence of parsed messages. -/
def processAll (s : ConsumerState) (msgs : List Message) : ConsumerState :=
  msgs.foldl procState s

/-- One line of the data file, abstracting `json.loads(line.strip())`:
either it parses to a message object or it raises a decode error. -/
inductive Line where
  | ok (m : Message)
  | malformed
deriving DecidableEq, Repr

/-- Lines 112-117: the `for line in f` loop.  Each parsed line is fed to
`process_message`; a malformed line raises out of the loop into the
`except` handler (lines 118-119), which logs and returns, so all later
lines are left unprocessed. -/
def consumeLines : ConsumerState → List Line → ConsumerState × List RenderEffect
  | s, [] => (s, [])
  | s, Line.malformed :: _ => (s, [])
  | s, Line.ok m :: rest =>
    let r := process_message s m
    let r2 := consumeLines r.1 rest
    (r2.1, r.2 ++ r2.2)

/-- Lines 102-119, `consume_from_file`: when `DATA_FILE` does not exist,
log and return immediately (lines 106-108); otherwise run the read loop
over the file's lines. -/
def consume_from_file (fileExists : Bool) (lines : List Line)
    (s : ConsumerState) : ConsumerState × List RenderEffect :=
  if fileExists then consumeLines s lines else (s, [])

/-- One step of the Kafka consumer iteration (line 96): either a record
whose payload deserialized to `m`, or an exception (connection failure
when building the consumer, or a decode failure inside the loop). -/
inductive KafkaEvent where
  | msg (value : Message)
  | err
deriving DecidableEq, Repr

/-- Lines 88-100: the `try` block of `consume_from_kafka`.  Messages are
processed in order; the first exception jumps to the `except` handler
(lines 99-100), which logs and returns — no reconnect, no fallback. -/
def consumeKafka : ConsumerState → List KafkaEvent → ConsumerState × List RenderEffect
  | s, [] => (s, [])
  | s, KafkaEvent.err :: _ => (s, [])
  | s, KafkaEvent.msg m :: rest =>
    let r := process_message s m
    let r2 := consumeKafka r.1 rest
    (r2.1, r.2 ++ r2.2)

/-- Lines 137-146, `main`: when the `kafka` import succeeded
(`KAFKA_AVAILABLE`, lines 10-14) call `consume_from_kafka`, otherwise
call `consume_from_file`; exactly one branch runs per process. -/
def mainRun (kafkaAvailable : Bool) (events : List KafkaEvent)
    (fileExists : Bool) (lines : List Line) :
    ConsumerState × List RenderEffect :=
  if kafkaAvailable then consumeKafka initialState events
  else consume_from_file fileExists lines initialState

/-- Sum of the histogram's counts. -/
def sumCounts (d : List (JVal × Nat)) : Nat :=
  (d.map Prod.snd).sum

/-- Whether a histogram key is a non-negative integer. -/
def isNonNegIntKey : JVal → Bool
  | JVal.num n => decide (0 ≤ n)
  | _ => false

/-! ### Basic lemmas about the dict update -/

theorem update_chart_fst (s : ConsumerState) : (update_chart s).1 = s := by
  unfold update_chart
  split <;> rfl

theorem procState_eq (s : ConsumerState) (m : Message) :
    procState s m =
      { message_lengths := s.message_lengths ++ [msgLen m]
        length_counts := dictIncr s.length_counts (msgLen m) } := rfl

theorem sumCounts_dictIncr (d : List (JVal × Nat)) (k : JVal) :
    sumCounts (dictIncr d k) = sumCounts d + 1 := by
  induction d with
  | nil => rfl
  | cons p rest ih =>
    obtain ⟨k', v⟩ := p
    by_cases h : k' = k
    · simp [dictIncr, h, sumCounts]
      omega
    · simp [dictIncr, h, sumCounts] at ih ⊢
      omega

theorem countOf_dictIncr_self (d : List (JVal × Nat)) (k : JVal) :
    countOf (dictIncr d k) k = countOf d k + 1 := by
  induction d with
  | nil => simp [dictIncr, countOf, List.lookup]
  | cons p rest ih =>
    obtain ⟨k', v⟩ := p
    by_cases h : k' = k
    · subst h
      simp [dictIncr, countOf, List.lookup]
    · have hbeq : (k == k') = false := by
        simp [beq_iff_eq]
        intro hk
        exact h hk.symm
      simp [dictIncr, h, countOf, List.lookup, hbeq] at ih ⊢
      exact ih

theorem dictIncr_mem_pos (d : List (JVal × Nat)) (k : JVal)
    (hd : ∀ p ∈ d, 0 < p.2) : ∀ p ∈ dictIncr d k, 0 < p.2 := by
  induction d with
  | nil =>
    intro p hp
    simp [dictIncr] at hp
    subst hp
    exact Nat.one_pos
  | cons q rest ih =>
    obtain ⟨k', v⟩ := q
    intro p hp
    by_cases h : k' = k
    · simp [dictIncr, h] at hp
      rcases hp with hp | hp
      · subst hp
        exact Nat.succ_pos v
      · exact hd p (List.mem_cons_of_mem _ hp)
    · simp only [dictIncr, if_neg h, List.mem_cons] at hp
      rcases hp with hp | hp
      · subst hp
        exact hd (k', v) (List.mem_cons_self _ _)
      · exact ih (fun q hq => hd q (List.mem_cons_of_mem _ hq)) p hp

theorem dictIncr_mem_key (d : List (JVal × Nat)) (k : JVal)
    (P : JVal → Prop) (hd : ∀ p ∈ d, P p.1) (hk : P k) :
    ∀ p ∈ dictIncr d k, P p.1 := by
  induction d with
  | nil =>
    intro p hp
    simp [dictIncr] at hp
    subst hp
    exact hk
  | cons q rest ih =>
    obtain ⟨k', v⟩ := q
    intro p hp
    by_cases h : k' = k
    · simp [dictIncr, h] at hp
      rcases hp with hp | hp
      · subst hp
        exact hk
      · exact hd p (List.mem_cons_of_mem _ hp)
    · simp only [dictIncr, if_neg h, List.mem_cons] at hp
      rcases hp with hp | hp
      · subst hp
        exact hd (k', v) (List.mem_cons_self _ _)
      · exact ih (fun q hq => hd q (List.mem_cons_of_mem _ hq)) p hp

theorem sumCounts_processAll (msgs : List Message) :
    ∀ s : ConsumerState,
      sumCounts (processAll s msgs).length_counts =
        sumCounts s.length_counts + msgs.length := by
  induction msgs with
  | nil => intro s; simp [processAll]
  | cons m rest ih =>
    intro s
    have h := ih (procState s m)
    simp only [processAll, List.foldl_cons] at h ⊢
    rw [h, procState_eq]
    simp only [sumCounts_dictIncr, List.length_cons]
    omega

theorem processAll_counts_pos (msgs : List Message) :
    ∀ s : ConsumerState, (∀ p ∈ s.length_counts, 0 < p.2) →
      ∀ p ∈ (processAll s msgs).length_counts, 0 < p.2 := by
  induction msgs with
  | nil => intro s hs; simpa [processAll] using hs
  | cons m rest ih =>
    intro s hs
    have hstep : ∀ p ∈ (procState s m).length_counts, 0 < p.2 := by
      rw [procState_eq]
      exact dictIncr_mem_pos _ _ hs
    have h := ih (procState s m) hstep
    simpa [processAll] using h

theorem processAll_keys (P : JVal → Prop) (msgs : List Message) :
    ∀ s : ConsumerState, (∀ p ∈ s.length_counts, P p.1) →
      (∀ m ∈ msgs, P (msgLen m)) →
      ∀ p ∈ (processAll s msgs).length_counts, P p.1 := by
  induction msgs with
  | nil => intro s hs _; simpa [processAll] using hs
  | cons m rest ih =>
    intro s hs hmsgs
    have hstep : ∀ p ∈ (procState s m).length_counts, P p.1 := by
      rw [procState_eq]
      exact dictIncr_mem_key _ _ P hs (hmsgs m (List.mem_cons_self _ _))
    have h := ih (procState s m) hstep
      (fun x hx => hmsgs x (List.mem_cons_of_mem _ hx))
    simpa [processAll] using h

theorem consumeLines_stops_at_malformed (pre : List Message) :
    ∀ (s : ConsumerState) (post : List Line),
      consumeLines s (pre.map Line.ok ++ Line.malformed :: post) =
        consumeLines s (pre.map Line.ok) := by
  induction pre with
  | nil => intro s post; rfl
  | cons m rest ih =>
    intro s post
    simp only [List.map_cons, List.cons_append, consumeLines, List.append_eq]
    rw [ih]

theorem consumeKafka_stops_at_err (pre : List Message) :
    ∀ (s : ConsumerState) (post : List KafkaEvent),
      consumeKafka s (pre.map KafkaEvent.msg ++ KafkaEvent.err :: post) =
        consumeKafka s (pre.map KafkaEvent.msg) := by
  induction pre with
  | nil => intro s post; rfl
  | cons m rest ih =>
    intro s post
    simp only [List.map_cons, List.cons_append, consumeKafka, List.append_eq]
    rw [ih]

/-! ### Claim theorems -/

/-- C1: for every sequence of successfully parsed and processed messages,
the sum of all counts in the histogram mapping equals the number of
messages processed so far; since this holds for every sequence, it holds
after every call to `process_message`. -/
theorem C1_histogram_sum_eq_messages_processed (msgs : List Message) :
    sumCounts (processAll initialState msgs).length_counts = msgs.length := by
  have h := sumCounts_processAll msgs initialState
  simpa [initialState, sumCounts] using h

/-- C2 counterexample: with the Kafka library available and the live
consumption attempt failing immediately (a connection exception), while a
readable data file with one well-formed record exists, the run leaves the
histogram empty — the program does not fall back to the file, although
file consumption of that record would have produced a nonempty histogram. -/
theorem C2_counterexample_no_fallback_on_kafka_failure :
    (mainRun true [KafkaEvent.err] true
        [Line.ok [("message_length", JVal.num 2)]]).1.length_counts = [] ∧
      (consume_from_file true [Line.ok [("message_length", JVal.num 2)]]
          initialState).1.length_counts = [(JVal.num 2, 1)] := by
  exact ⟨rfl, rfl⟩

/-- C2 amended: the source decision depends only on whether the Kafka
library imported.  When it is available, the run is exactly live
consumption — its outcome is independent of the file parameters, so a
failed live attempt is logged and ends the run with no file fallback.
When the library is unavailable, the run is exactly file consumption.
Either way the decision is made once per run with no retry between
sources. -/
theorem C2_amended_source_decision_once (events : List KafkaEvent)
    (fileExists : Bool) (lines : List Line) :
    mainRun true events fileExists lines = consumeKafka initialState events ∧
      mainRun false events fileExists lines =
        consume_from_file fileExists lines initialState :=
  ⟨rfl, rfl⟩

/-- C3: processing a message object with no `"message_length"` field
increments the histogram bucket for the value `0` by one (the length
defaults to zero when the field is absent). -/
theorem C3_missing_field_increments_zero_bucket
    (s : ConsumerState) (m : Message)
    (h : m.lookup "message_length" = none) :
    countOf (procState s m).length_counts (JVal.num 0) =
      countOf s.length_counts (JVal.num 0) + 1 := by
  have hlen : msgLen m = JVal.num 0 := by simp [msgLen, h]
  rw [procState_eq, hlen]
  exact countOf_dictIncr_self _ _

theorem C3_missing_field_increments_zero_bucket_witness :
    ([] : Message).lookup "message_length" = none ∧
      countOf (procState initialState []).length_counts (JVal.num 0) =
        countOf initialState.length_counts (JVal.num 0) + 1 :=
  ⟨rfl, C3_missing_field_increments_zero_bucket initialState [] rfl⟩

/-- C4: processing the same message twice increments its histogram bucket
by exactly 2, not 1: for every message `m` and every histogram state `s`,
processing `m` in `s` and again in the resulting state yields a count for
`m`'s length 2 greater than in `s` (no deduplication). -/
theorem C4_reprocessing_same_message_adds_two (s : ConsumerState) (m : Message) :
    countOf (procState (procState s m) m).length_counts (msgLen m) =
      countOf s.length_counts (msgLen m) + 2 := by
  simp only [procState_eq]
  rw [countOf_dictIncr_self, countOf_dictIncr_self]

/-- C5: an error during consumption (a malformed record in file mode, or
an exception in Kafka mode) ends the current consumption loop at that
point: the run's total result equals the result of processing only the
records before the error, so no later lines are processed — one malformed
line stops the whole loop rather than being skipped.  Both loop functions
are total, so the run ends without a crash. -/
theorem C5_error_ends_loop_later_lines_unprocessed
    (s : ConsumerState) (pre : List Message)
    (post : List Line) (evs : List KafkaEvent) :
    consumeLines s (pre.map Line.ok ++ Line.malformed :: post) =
        consumeLines s (pre.map Line.ok) ∧
      consumeKafka s (pre.map KafkaEvent.msg ++ KafkaEvent.err :: evs) =
        consumeKafka s (pre.map KafkaEvent.msg) :=
  ⟨consumeLines_stops_at_malformed pre s post,
   consumeKafka_stops_at_err pre s evs⟩

/-- C6: when the Kafka library is unavailable and the data file does not
exist, the run logs an error and returns immediately: no render effects
are emitted (no chart updates) and the final state is the initial one,
whose histogram and sample list are both empty. -/
theorem C6_no_file_no_broker_no_updates (events : List KafkaEvent)
    (lines : List Line) :
    mainRun false events false lines = (initialState, []) ∧
      initialState.message_lengths = [] ∧
      initialState.length_counts = [] := by
  refine ⟨?_, rfl, rfl⟩
  simp [mainRun, consume_from_file]

/-- C7 counterexample: the histogram's keys need not be non-negative
integers.  Processing the single message `{"message_length": -1}` from
the initial state yields the reachable histogram `[(-1, 1)]`, whose key
is a negative integer. -/
theorem C7_counterexample_negative_key_reachable :
    (processAll initialState
        [[("message_length", JVal.num (-1))]]).length_counts =
      [(JVal.num (-1), 1)] ∧
      isNonNegIntKey (JVal.num (-1)) = false := by
  exact ⟨rfl, rfl⟩

/-- C7 amended: in every reachable state the histogram maps the observed
length values to occurrence counts that are positive integers; the keys
are non-negative integers whenever every processed message's extracted
length is one (in particular whenever each message either lacks the field
or carries a non-negative integer), but an input carrying a different
value becomes a key verbatim. -/
theorem C7_amended_counts_positive_keys_verbatim (msgs : List Message) :
    (∀ p ∈ (processAll initialState msgs).length_counts, 0 < p.2) ∧
      ((∀ m ∈ msgs, isNonNegIntKey (msgLen m) = true) →
        ∀ p ∈ (processAll initialState msgs).length_counts,
          isNonNegIntKey p.1 = true) := by
  constructor
  · refine processAll_counts_pos msgs initialState ?_
    intro p hp
    simp [initialState] at hp
  · intro hall
    refine processAll_keys (fun v => isNonNegIntKey v = true) msgs initialState ?_ hall
    intro p hp
    simp [initialState] at hp

theorem C7_amended_counts_positive_keys_verbatim_witness :
    0 < ((JVal.num 2, 1) : JVal × Nat).2 ∧
      isNonNegIntKey ((JVal.num 2, 1) : JVal × Nat).1 = true :=
  ⟨(C7_amended_counts_positive_keys_verbatim
      [[("message_length", JVal.num 2)]]).1 (JVal.num 2, 1) (by decide),
   (C7_amended_counts_positive_keys_verbatim
      [[("message_length", JVal.num 2)]]).2 (by decide) (JVal.num 2, 1) (by decide)⟩

/-- C8: consuming the existing file whose three records have lengths
1, 2, 2 (the length-coded records of `["a","bb","bb"]`) from the empty
initial state yields exactly the histogram `{1: 1, 2: 2}`. -/
theorem C8_file_lengths_one_two_two_histogram :
    (consume_from_file true
        [Line.ok [("message_length", JVal.num 1)],
         Line.ok [("message_length", JVal.num 2)],
         Line.ok [("message_length", JVal.num 2)]]
        initialState).1.length_counts =
      [(JVal.num 1, 1), (JVal.num 2, 2)] := by
  rfl

/-- C9: whenever the sample list is empty, `update_chart` returns right
after clearing the axes: it emits no draw effect and leaves the state —
the histogram mapping and the sample list — unchanged. -/
theorem C9_update_chart_noop_without_samples (s : ConsumerState)
    (h : s.message_lengths = []) :
    update_chart s = (s, [RenderEffect.clear]) := by
  simp [update_chart, h]

theorem C9_update_chart_noop_without_samples_witness :
    initialState.message_lengths = [] ∧
      update_chart initialState = (initialState, [RenderEffect.clear]) :=
  ⟨rfl, C9_update_chart_noop_without_samples initialState rfl⟩

/-- C10: the zero default applies only when the `"message_length"` key is
entirely absent: whenever the key is present, its value `v` — whatever it
is, including `null`, a negative number, or a non-numeric value — is
appended verbatim to the sample list and used verbatim as the histogram
key, with no validation or coercion. -/
theorem C10_present_value_used_verbatim (s : ConsumerState) (m : Message)
    (v : JVal) (h : m.lookup "message_length" = some v) :
    procState s m =
      { message_lengths := s.message_lengths ++ [v]
        length_counts := dictIncr s.length_counts v } := by
  have hlen : msgLen m = v := by simp [msgLen, h]
  rw [procState_eq, hlen]

theorem C10_present_value_used_verbatim_witness :
    ([("message_length", JVal.null)] : Message).lookup "message_length" =
        some JVal.null ∧
      procState initialState [("message_length", JVal.null)] =
        { message_lengths := [JVal.null]
          length_counts := [(JVal.null, 1)] } := by
  refine ⟨rfl, ?_⟩
  rw [C10_present_value_used_verbatim initialState
    [("message_length", JVal.null)] JVal.null rfl]
  rfl
